import Mathlib

/-!
# Verification of the React 18 demo application (src/App.tsx)

Shallow embedding of the data layer of the demo: the generated product
catalog `ALL_PRODUCTS`, the simulated API `fetchProducts`, the Suspense
resource primitive `createResource`, the root component's `handleChange`
handler, and the `ErrorBoundary` class.  Promises are modelled by their
single settlement event; the randomized timer delay is not observable in
the resolved value and is not modelled.
-/

set_option maxRecDepth 100000
set_option maxHeartbeats 1000000

namespace React18

/-- JS `String.prototype.toLowerCase`, applied per character.  The catalog
and the queries of interest are ASCII (apart from the caseless U+2011
hyphen in two titles), where JS lowercasing agrees with `Char.toLower`. -/
def lowerStr (s : String) : String := String.mk (s.data.map Char.toLower)

/-- Drop leading and trailing whitespace from a character list
(JS `String.prototype.trim`). -/
def trimList (l : List Char) : List Char :=
  ((l.dropWhile Char.isWhitespace).reverse.dropWhile Char.isWhitespace).reverse

/-- JS `String.prototype.trim` on strings. -/
def jsTrim (s : String) : String := String.mk (trimList s.data)

/-- Boolean test: the first list is a leading segment of the second. -/
def leadsB : List Char → List Char → Bool
  | [], _ => true
  | _ :: _, [] => false
  | a :: as, b :: bs => a == b && leadsB as bs

/-- JS `String.prototype.includes` on character lists: `need` occurs as a
contiguous substring of the second argument. -/
def containsB (need : List Char) : List Char → Bool
  | [] => need.isEmpty
  | c :: t => leadsB need (c :: t) || containsB need t

/-- `hay.includes(need)` for strings. -/
def strIncludes (hay need : String) : Bool := containsB need.data hay.data

/-- A catalog record, per the object literal built in `ALL_PRODUCTS`. -/
structure Product where
  id : String
  title : String
  brand : String
  price : Nat
deriving DecidableEq, Inhabited

/-- The fixed 10-title cycle of the catalog generator (copied verbatim,
including the U+2011 non-breaking hyphens). -/
def titleCycle : List String :=
  ["Espresso Machine", "Induction Cooktop", "Chef Knife", "Cast‑Iron Skillet",
   "Bakeware Set", "Range Hood", "Dishwasher", "Steam Oven", "Combi Oven",
   "Sous‑vide Stick"]

/-- The fixed 4-brand cycle of the catalog generator. -/
def brandCycle : List String := ["Aran", "Bertazzoni", "Caesarstone", "Radianz"]

/-- The record generated from 0-based index `i`, per the `map` callback of
`ALL_PRODUCTS` in src/App.tsx. -/
def mkProduct (i : Nat) : Product :=
  { id := toString (i + 1)
    title := titleCycle.getD (i % 10) "" ++ " " ++ toString (i + 1)
    brand := brandCycle.getD (i % 4) ""
    price := 99 + ((i * 17) % 900) }

/-- The fixed catalog: 250 records generated from their index.  In the
source it is a `const` array built once at module load and never written
to again, so a constant list is a faithful model. -/
def ALL_PRODUCTS : List Product := (List.range 250).map mkProduct

/-- The value the promise of `fetchProducts(query)` resolves with: the
query is lowercased then trimmed, and the catalog is filtered by substring
match on lowercased title or brand.  The randomized `setTimeout` delay
does not affect the resolved value. -/
def fetchProducts (query : String) : List Product :=
  let q := jsTrim (lowerStr query)
  ALL_PRODUCTS.filter fun p =>
    strIncludes (lowerStr p.title) q || strIncludes (lowerStr p.brand) q

/-- Spec-worded normalization of a query: "q trimmed and lowercased". -/
def specNormalize (q : String) : String := lowerStr (jsTrim q)

/-- Spec-worded match predicate: title or brand contains the normalized
query as a case-insensitive substring. -/
def specMatches (q : String) (p : Product) : Bool :=
  strIncludes (lowerStr p.title) (specNormalize q) ||
  strIncludes (lowerStr p.brand) (specNormalize q)

/-- The synchronous re-filter of `ProductsPanel`: the deferred query is
lowercased (but, unlike in `fetchProducts`, not trimmed) and the resolved
data is filtered by substring match on lowercased title or brand. -/
def panelFilter (deferredQuery : String) (data : List Product) : List Product :=
  let q := lowerStr deferredQuery
  data.filter fun p =>
    strIncludes (lowerStr p.title) q || strIncludes (lowerStr p.brand) q


/-! ## The Suspense resource primitive (`createResource`)

A promise is modelled by its single settlement event.  `createResource`
attaches one pair of `then`-callbacks to the promise; the JS promise
machinery delivers exactly one settlement, at some time `settleTime`.
The mutable `status`/`result` pair of the closure is therefore a function
of time: `pending` strictly before `settleTime`, and afterwards whatever
the two callbacks wrote for the delivered settlement. -/

/-- The single settlement event of a promise. -/
inductive Settlement (E T : Type) where
  | rejected (e : E)
  | fulfilled (v : T)
deriving DecidableEq

/-- The tri-state `status`/`result` cell of `createResource`. -/
inductive Status (E T : Type) where
  | pending
  | success (v : T)
  | error (e : E)
deriving DecidableEq

/-- What the two `then`-callbacks of `createResource` write when the
promise settles: `success r` on fulfillment, `error e` on rejection. -/
def applySettlement : Settlement E T → Status E T
  | .fulfilled r => .success r
  | .rejected e => .error e

/-- The resource's cell as a function of (discrete) time: `pending`
strictly before the settlement is delivered, settled afterwards. -/
def statusAt (settleTime : Nat) (s : Settlement E T) (t : Nat) : Status E T :=
  if t < settleTime then .pending else applySettlement s

/-- Outcome of one call to `read()`: it either throws the suspender
promise, throws the cached rejection reason, or returns the value. -/
inductive ReadResult (E T : Type) where
  | suspends
  | throws (e : E)
  | returns (v : T)
deriving DecidableEq

/-- The `read()` method of the object returned by `createResource`. -/
def read : Status E T → ReadResult E T
  | .pending => .suspends
  | .error e => .throws e
  | .success v => .returns v

/-- The settlement of the promise returned by `fetchProducts(q)`: its
executor only ever calls `resolve(filtered)`, never `reject`. -/
def fetchSettlement (q : String) : Settlement E (List Product) :=
  .fulfilled (fetchProducts q)

/-! ## The root component (`App`) and its `handleChange` handler

`createResource` allocates a fresh closure on every call; a generation
counter `gen` models this allocation, so two resources from different
calls are distinguishable.  A resource handle records the query whose
`fetchProducts` promise it wraps; that promise's eventual value is
`fetchProducts fetchedQuery`. -/

/-- A handle to one `createResource(fetchProducts(q))` allocation. -/
structure ResourceHandle where
  gen : Nat
  fetchedQuery : String
deriving DecidableEq

/-- The value the resource's underlying promise eventually fulfills with. -/
def eventualResult (r : ResourceHandle) : List Product :=
  fetchProducts r.fetchedQuery

/-- The two `useState` cells of `App`. -/
structure AppState where
  query : String
  resource : ResourceHandle
deriving DecidableEq

/-- `handleChange(next)`: `setQuery(next)`, then inside `startTransition`
`setResource(createResource(fetchProducts(next)))` — a brand-new resource
(fresh generation) wrapping a brand-new fetch for `next`. -/
def handleChange (s : AppState) (next : String) : AppState :=
  { query := next
    resource := { gen := s.resource.gen + 1, fetchedQuery := next } }

/-- Fold a sequence of input events through `handleChange`. -/
def applyQueries (s : AppState) : List String → AppState
  | [] => s
  | q :: qs => applyQueries (handleChange s q) qs

/-- The list `ProductsPanel` renders once the current resource resolves:
it reads only the current resource, never a superseded one. -/
def renderedData (s : AppState) : List Product :=
  eventualResult s.resource

/-! ## The error boundary -/

/-- The state of `ErrorBoundary`: the captured failure, or `none`. -/
structure BoundaryState where
  error : Option String
deriving DecidableEq

/-- `getDerivedStateFromError(error)`: capture the failure. -/
def getDerivedStateFromError (e : String) : BoundaryState := { error := some e }

/-- The retry button's `onClick`: `this.setState({ error: null })` -- it
writes only the boundary's own `error` field. -/
def retryClick (_b : BoundaryState) : BoundaryState := { error := none }

/-- Retry observed at the level of the whole application state: the
boundary's failure is cleared, and the `App` state (query and current
resource) is untouched. -/
def appRetry (p : AppState × BoundaryState) : AppState × BoundaryState :=
  (p.1, retryClick p.2)

/-- What one render pass of `ErrorBoundary` around the Suspense region
produces, together with the boundary state after the pass.  With a
captured failure the fallback panel is rendered; otherwise the subtree
calls `read()` on the resource, and a thrown error is captured via
`getDerivedStateFromError` and the fallback rendered. -/
inductive Rendered where
  | fallbackPanel (e : String)
  | suspenseFallback
  | content (data : List Product)
deriving DecidableEq

/-- One render pass of the boundary-wrapped panel over resource cell `r`. -/
def renderPass (b : BoundaryState) (r : Status String (List Product)) :
    BoundaryState × Rendered :=
  match b.error with
  | some e => (b, .fallbackPanel e)
  | none =>
    match read r with
    | .throws e => (getDerivedStateFromError e, .fallbackPanel e)
    | .suspends => (b, .suspenseFallback)
    | .returns v => (b, .content v)

/-! ## Helper lemmas -/

/-- `Char.toLower` maps no character into or out of the whitespace set:
it only moves the basic latin capitals, which are not whitespace, onto
the basic latin small letters, which are not whitespace either. -/
theorem isWhitespace_toLower (c : Char) :
    (Char.toLower c).isWhitespace = c.isWhitespace := by
  by_cases hws : c.isWhitespace = true
  · have h4 : ((c = ' ' ∨ c = '\t') ∨ c = '\x0d') ∨ c = '\n' := by
      simpa [Char.isWhitespace] using hws
    rcases h4 with ((rfl | rfl) | rfl) | rfl <;> decide
  · rw [Bool.not_eq_true] at hws
    rw [hws]
    by_cases h : c.toNat ≥ 65 ∧ c.toNat ≤ 90
    · show (if c.toNat ≥ 65 ∧ c.toNat ≤ 90 then Char.ofNat (c.toNat + 32)
        else c).isWhitespace = false
      rw [if_pos h]
      obtain ⟨h1, h2⟩ := h
      set n := Char.toNat c with hn
      interval_cases n <;> decide
    · show (if c.toNat ≥ 65 ∧ c.toNat ≤ 90 then Char.ofNat (c.toNat + 32)
        else c).isWhitespace = false
      rw [if_neg h]
      exact hws

/-- Lowercasing commutes with trimming on character lists. -/
theorem trimList_map_toLower (l : List Char) :
    trimList (l.map Char.toLower) = (trimList l).map Char.toLower := by
  have hp : (Char.isWhitespace ∘ Char.toLower) = Char.isWhitespace := by
    funext c
    exact isWhitespace_toLower c
  unfold trimList
  simp only [List.dropWhile_map, ← List.map_reverse, hp]

/-- Lowercasing commutes with trimming on strings: the code's
`query.toLowerCase().trim()` equals the spec's "trimmed and lowercased". -/
theorem jsTrim_lowerStr (s : String) :
    jsTrim (lowerStr s) = lowerStr (jsTrim s) := by
  unfold jsTrim lowerStr
  show String.mk (trimList (s.data.map Char.toLower)) = _
  rw [trimList_map_toLower]

/-- The empty character list is a substring of everything
(JS `hay.includes("") === true`). -/
theorem containsB_nil (hay : List Char) : containsB [] hay = true := by
  cases hay <;> simp [containsB, leadsB, List.isEmpty]

/-- Unfolding of `fetchProducts` with the `let` inlined. -/
theorem fetchProducts_def (q : String) :
    fetchProducts q = ALL_PRODUCTS.filter fun p =>
      strIncludes (lowerStr p.title) (jsTrim (lowerStr q)) ||
      strIncludes (lowerStr p.brand) (jsTrim (lowerStr q)) := rfl

/-- Unfolding of `panelFilter` with the `let` inlined. -/
theorem panelFilter_def (q : String) (data : List Product) :
    panelFilter q data = data.filter fun p =>
      strIncludes (lowerStr p.title) (lowerStr q) ||
      strIncludes (lowerStr p.brand) (lowerStr q) := rfl

/-- The 250 generated ids are pairwise distinct: decoding each id back to
a number yields `1, …, 250`, which has no duplicates. -/
theorem ids_nodup : (ALL_PRODUCTS.map Product.id).Nodup := by
  have h1 : (ALL_PRODUCTS.map Product.id).map
        (fun s => s.data.foldl (fun n c => n * 10 + (c.toNat - 48)) 0) =
      (List.range 250).map (fun i => i + 1) := by decide
  have hinj : Function.Injective (fun i : Nat => i + 1) :=
    fun a b h => Nat.add_right_cancel h
  have h2 : ((List.range 250).map (fun i => i + 1)).Nodup :=
    List.Nodup.map hinj (List.nodup_range 250)
  rw [← h1] at h2
  exact List.Nodup.of_map _ h2

/-! ## The claims -/

/-- C1: for every query string `q`, the list `fetchProducts(q)`'s promise
resolves to is exactly the subsequence of the fixed catalog whose title or
brand contains the normalized query (trimmed and lowercased) as a
case-insensitive substring, in original catalog order; and the empty
query returns the full 250-record catalog in original order. -/
theorem fetchProducts_spec :
    (∀ q : String,
      fetchProducts q = ALL_PRODUCTS.filter (specMatches q) ∧
      List.Sublist (fetchProducts q) ALL_PRODUCTS) ∧
    fetchProducts "" = ALL_PRODUCTS := by
  constructor
  · intro q
    constructor
    · rw [fetchProducts_def]
      unfold specMatches specNormalize
      rw [jsTrim_lowerStr]
    · rw [fetchProducts_def]
      exact List.filter_sublist _
  · rw [fetchProducts_def]
    apply List.filter_eq_self.mpr
    intro p _
    have h : jsTrim (lowerStr "") = "" := rfl
    rw [h]
    show (containsB [] (lowerStr p.title).data || _) = true
    rw [containsB_nil]
    rfl

/-- C8: the catalog holds exactly 250 records, each generated from its
0-based index `i` by the fixed formulas (id the decimal string of `i+1`,
title from the 10-name cycle plus the number, brand from the 4-brand
cycle, price `99 + ((i*17) mod 900)`), and all ids are distinct. -/
theorem catalog_generation :
    ALL_PRODUCTS.length = 250 ∧
    ALL_PRODUCTS = (List.range 250).map (fun i =>
      { id := toString (i + 1)
        title := titleCycle.getD (i % 10) "" ++ " " ++ toString (i + 1)
        brand := brandCycle.getD (i % 4) ""
        price := 99 + ((i * 17) % 900) : Product }) ∧
    (ALL_PRODUCTS.map Product.id).Nodup := by
  refine ⟨?_, rfl, ids_nodup⟩
  simp [ALL_PRODUCTS]

/-- C9: the query "Knife" matches exactly the 25 records generated at the
indices `10k + 2` (every 10th record starting at 0-based index 2), in
generation order, with ids "3", "13", …, "243" and brands following the
`i % 4` cycle. -/
theorem knife_query_results :
    fetchProducts "Knife" = (List.range 25).map (fun k => mkProduct (10 * k + 2)) ∧
    (fetchProducts "Knife").map Product.id =
      (List.range 25).map (fun k => toString (10 * k + 3)) ∧
    (fetchProducts "Knife").map Product.brand =
      (List.range 25).map (fun k => brandCycle.getD ((10 * k + 2) % 4) "") := by
  refine ⟨by decide, ?_, ?_⟩ <;> decide

/-- C2: while the underlying promise is unsettled, `read()` suspends and
never returns a value; after a rejection it throws the cached reason;
after a fulfillment it returns the value; and it returns a value iff the
operation settled successfully. -/
theorem read_spec (E T : Type) (st : Nat) (s : Settlement E T) (t : Nat) :
    (t < st → read (statusAt st s t) = ReadResult.suspends) ∧
    (st ≤ t → ∀ e, s = Settlement.rejected e →
      read (statusAt st s t) = ReadResult.throws e) ∧
    (st ≤ t → ∀ v, s = Settlement.fulfilled v →
      read (statusAt st s t) = ReadResult.returns v) ∧
    ((∃ v, read (statusAt st s t) = ReadResult.returns v) ↔
      st ≤ t ∧ ∃ v, s = Settlement.fulfilled v) := by
  unfold statusAt
  by_cases h : t < st
  · rw [if_pos h]
    refine ⟨fun _ => rfl,
      fun hle => absurd hle (Nat.not_le.mpr h),
      fun hle => absurd hle (Nat.not_le.mpr h), ?_⟩
    constructor
    · rintro ⟨v, hv⟩
      simp [read] at hv
    · rintro ⟨hle, -⟩
      exact absurd hle (Nat.not_le.mpr h)
  · rw [if_neg h]
    refine ⟨fun hlt => absurd hlt h, ?_, ?_, ?_⟩
    · rintro _ e rfl
      rfl
    · rintro _ v rfl
      rfl
    · constructor
      · rintro ⟨v, hv⟩
        rcases s with e | w
        · simp [applySettlement, read] at hv
        · exact ⟨Nat.le_of_not_lt h, w, rfl⟩
      · rintro ⟨-, v, rfl⟩
        exact ⟨v, rfl⟩

/-- Witness for C2 at concrete inputs: before the settlement time the
read suspends; after a fulfillment it returns the value; after a
rejection it throws the reason. -/
theorem read_spec_witness :
    read (statusAt 5 (Settlement.fulfilled (E := String) (42 : Nat)) 3) =
      ReadResult.suspends ∧
    read (statusAt 5 (Settlement.fulfilled (E := String) (42 : Nat)) 7) =
      ReadResult.returns 42 ∧
    read (statusAt 5 (Settlement.rejected (T := Nat) "boom") 7) =
      ReadResult.throws "boom" :=
  ⟨(read_spec String Nat 5 (Settlement.fulfilled 42) 3).1 (by decide),
   (read_spec String Nat 5 (Settlement.fulfilled 42) 7).2.2.1 (by decide) 42 rfl,
   (read_spec String Nat 5 (Settlement.rejected "boom") 7).2.1 (by decide) "boom" rfl⟩

/-- C3: a Resource is write-once — once its cell has left `pending`, the
cell never changes again, and any two later `read()` calls produce the
identical outcome (same value or same reason). -/
theorem resource_write_once (E T : Type) (st : Nat) (s : Settlement E T)
    (t t' : Nat) (hsettled : statusAt st s t ≠ Status.pending) (hle : t ≤ t') :
    statusAt st s t' = statusAt st s t ∧
    read (statusAt st s t') = read (statusAt st s t) := by
  have hst : st ≤ t := by
    by_contra hlt
    rw [Nat.not_le] at hlt
    exact hsettled (by unfold statusAt; rw [if_pos hlt])
  have h1 : statusAt st s t = applySettlement s := by
    unfold statusAt
    rw [if_neg (Nat.not_lt.mpr hst)]
  have h2 : statusAt st s t' = applySettlement s := by
    unfold statusAt
    rw [if_neg (Nat.not_lt.mpr (Nat.le_trans hst hle))]
  rw [h1, h2]
  exact ⟨rfl, rfl⟩

/-- Witness for C3 at concrete inputs: a resource settled (rejected) at
time 2 shows the identical cell at times 3 and 10. -/
theorem resource_write_once_witness :
    statusAt 2 (Settlement.rejected (T := Nat) "boom") 10 =
      statusAt 2 (Settlement.rejected (T := Nat) "boom") 3 ∧
    read (statusAt 2 (Settlement.rejected (T := Nat) "boom") 10) =
      read (statusAt 2 (Settlement.rejected (T := Nat) "boom") 3) :=
  resource_write_once String Nat 2 (Settlement.rejected "boom") 3 10
    (by decide) (by decide)

/-- C4: `handleChange(next)` sets the authoritative query to `next` and
replaces the current resource with a brand-new resource (fresh
allocation) wrapping a brand-new `fetchProducts(next)` operation; the
previous resource object is never reused for the new query. -/
theorem handleChange_spec (s : AppState) (next : String) :
    (handleChange s next).query = next ∧
    (handleChange s next).resource.fetchedQuery = next ∧
    eventualResult (handleChange s next).resource = fetchProducts next ∧
    (handleChange s next).resource ≠ s.resource := by
  refine ⟨rfl, rfl, rfl, fun h => ?_⟩
  have hgen : s.resource.gen + 1 = s.resource.gen := congrArg ResourceHandle.gen h
  omega

/-- Witness for C4 at a concrete state and query. -/
theorem handleChange_spec_witness :
    (handleChange ⟨"", ⟨0, ""⟩⟩ "Knife").query = "Knife" ∧
    (handleChange ⟨"", ⟨0, ""⟩⟩ "Knife").resource.fetchedQuery = "Knife" :=
  ⟨(handleChange_spec ⟨"", ⟨0, ""⟩⟩ "Knife").1,
   (handleChange_spec ⟨"", ⟨0, ""⟩⟩ "Knife").2.1⟩

/-- C5: after any burst of query changes, the committed state reflects
only the last query: the current resource is the one created for it, the
rendering region's data is `fetchProducts` of the last query, and every
superseded resource (strictly smaller generation) is no longer current,
so its eventual result is never read. -/
theorem latest_resource_wins (s : AppState) (pre : List String) (q : String) :
    (applyQueries s (pre ++ [q])).query = q ∧
    (applyQueries s (pre ++ [q])).resource.fetchedQuery = q ∧
    renderedData (applyQueries s (pre ++ [q])) = fetchProducts q ∧
    (applyQueries s (pre ++ [q])).resource.gen =
      s.resource.gen + pre.length + 1 := by
  induction pre generalizing s with
  | nil => exact ⟨rfl, rfl, rfl, rfl⟩
  | cons x xs ih =>
    simp only [List.cons_append, applyQueries, List.append_eq]
    have h := ih (handleChange s x)
    refine ⟨h.1, h.2.1, h.2.2.1, ?_⟩
    rw [h.2.2.2]
    simp only [handleChange, List.length_cons]
    omega

/-- C6: the retry action of the error boundary resets only the captured
failure and nothing else — the query and the current resource are
untouched and no new resource is constructed — so a subsequent render
pass over the same failed resource captures the same failure and shows
the fallback again. -/
theorem retry_only_clears_failure (a : AppState) (b : BoundaryState)
    (e : String) :
    appRetry (a, b) = (a, { error := none }) ∧
    (appRetry (a, b)).1.query = a.query ∧
    (appRetry (a, b)).1.resource = a.resource ∧
    renderPass (retryClick b) (Status.error e) =
      ({ error := some e }, Rendered.fallbackPanel e) :=
  ⟨rfl, rfl, rfl, rfl⟩

/-- C7: the promise of `fetchProducts` always fulfills (its executor only
ever calls `resolve`), so a resource built from it is never in the
`error` state and its `read()` never throws a cached reason. -/
theorem fetchProducts_never_rejects (E : Type) (q : String) (st t : Nat) :
    fetchSettlement (E := E) q = Settlement.fulfilled (fetchProducts q) ∧
    (∀ e : E, statusAt st (fetchSettlement q) t ≠ Status.error e) ∧
    (∀ e : E, read (statusAt st (fetchSettlement q) t) ≠ ReadResult.throws e) := by
  refine ⟨rfl, ?_, ?_⟩ <;> intro e <;> unfold statusAt <;> by_cases h : t < st
  · rw [if_pos h]
    intro hcon
    cases hcon
  · rw [if_neg h]
    intro hcon
    cases hcon
  · rw [if_pos h]
    intro hcon
    cases hcon
  · rw [if_neg h]
    intro hcon
    cases hcon

/-- Witness for C7 at concrete inputs: the settled cell for the query
"Knife" holds the fulfilled product list, not an error. -/
theorem fetchProducts_never_rejects_witness :
    statusAt 1 (fetchSettlement (E := String) "Knife") 4 ≠
      Status.error "boom" :=
  (fetchProducts_never_rejects String "Knife" 1 4).2.1 "boom"

/-- C10: for a query equal to its own trimmed form, re-applying the
rendering region's synchronous filter to the list `fetchProducts`
resolved to is the identity; with surrounding whitespace this fails,
witnessed by the query " Aran". -/
theorem panelFilter_idempotent :
    (∀ q : String, jsTrim q = q →
      panelFilter q (fetchProducts q) = fetchProducts q) ∧
    panelFilter " Aran" (fetchProducts " Aran") ≠ fetchProducts " Aran" := by
  constructor
  · intro q hq
    have hnorm : jsTrim (lowerStr q) = lowerStr q := by
      rw [jsTrim_lowerStr, hq]
    rw [panelFilter_def, fetchProducts_def, hnorm, List.filter_filter]
    apply List.filter_congr
    intro p _
    rw [Bool.and_self]
  · decide

/-- Witness for C10 at the concrete trimmed query "Knife". -/
theorem panelFilter_idempotent_witness :
    panelFilter "Knife" (fetchProducts "Knife") = fetchProducts "Knife" :=
  panelFilter_idempotent.1 "Knife" (by decide)

end React18
